import Mathlib

/-!
Verification of the `scan.py` program from moran-x/multicast-scan.

The program is embedded shallowly: Python strings become `List Char`,
the file system and the network become explicit parameters (the content
of the playlist file, the outcome of the UDP receive, the outcome of the
ffprobe invocation), and exceptions become `Except Unit`.  Every
definition follows the corresponding Python function of `scan.py`;
comments cite the lines they translate.
-/

namespace MulticastScan

/-- Characters of a Python string. -/
abbrev Chars := List Char

/-- A parsed-playlist dictionary: Python's `dict` as an insertion-ordered
association list with unique keys (key and value are channel name and
`address:port` strings). -/
abbrev Dict := List (Chars × Chars)

instance {ε α : Type} [DecidableEq ε] [DecidableEq α] : DecidableEq (Except ε α) := fun x y =>
  match x, y with
  | .ok a, .ok b =>
    if h : a = b then .isTrue (congrArg Except.ok h)
    else .isFalse (fun hc => h (Except.ok.inj hc))
  | .error a, .error b =>
    if h : a = b then .isTrue (congrArg Except.error h)
    else .isFalse (fun hc => h (Except.error.inj hc))
  | .ok _, .error _ => .isFalse (fun hc => Except.noConfusion hc)
  | .error _, .ok _ => .isFalse (fun hc => Except.noConfusion hc)

/-! ### Regular-expression fragments

`scan.py` line 97 compiles `(?<=#EXTINF:-1,)(.*)(?=$)` and line 98 compiles
`(?<=@)(.*)(?=$)`.  On a single line (no inner newline), `re.search` with
such a pattern returns the text after the first occurrence of the
look-behind marker, or `None` when the marker does not occur.  `afterFirst`
is that semantics on character lists. -/

/-- Removes `m` from the front of the second list, if it is a prefix. -/
def stripPfx : Chars → Chars → Option Chars
  | [], l => some l
  | _ :: _, [] => none
  | m :: ms, c :: cs => if m = c then stripPfx ms cs else none

/-- Text after the first occurrence of `marker`, or `none` when `marker`
does not occur (`re.search` returning `None`). -/
def afterFirst (marker : Chars) : Chars → Option Chars
  | [] => none
  | c :: cs =>
    match stripPfx marker (c :: cs) with
    | some rest => some rest
    | none => afterFirst marker cs

/-- The look-behind of `channel_name_re` (line 97). -/
def nameMarker : Chars := "#EXTINF:-1,".data

/-- The look-behind of `channel_address_re` (line 98). -/
def addrMark : Chars := ['@']

/-! ### Lines of a file

Python's file-line iteration used at lines 104-108 yields the pieces of
the file content delimited by newline characters; a trailing empty piece
corresponds to `readline` returning the empty string at end of file. -/

/-- Splits a file content at newline characters. -/
def splitNL : Chars → List Chars
  | [] => [[]]
  | c :: cs =>
    if c = '\n' then [] :: splitNL cs
    else
      match splitNL cs with
      | [] => [[c]]
      | l :: ls => (c :: l) :: ls

/-! ### Python dict semantics

Assignment `dictionary[channel_name] = channel_address` (line 109) on a
CPython 3.7+ dict updates the value in place when the key exists
(keeping its original position) and appends the key otherwise. -/

/-- One dict assignment: replace the value at an existing key, keeping
its position, or append a fresh key at the end. -/
def dictInsert (d : Dict) (k v : Chars) : Dict :=
  match d with
  | [] => [(k, v)]
  | (k', v') :: tl => if k' = k then (k', v) :: tl else (k', v') :: dictInsert tl k v

/-- Value stored at a key (unique in a dict built by `dictInsert`). -/
def dlookup (k : Chars) : Dict → Option Chars
  | [] => none
  | (k', v') :: tl => if k' = k then some v' else dlookup k tl

/-- Number of entries carrying a given key. -/
def countKey (k : Chars) : List (Chars × Chars) → Nat
  | [] => 0
  | (k', _) :: tl => (if k' = k then 1 else 0) + countKey k tl

/-- Value of the last pair carrying a given key, in list order. -/
def lastVal (k : Chars) : List (Chars × Chars) → Option Chars
  | [] => none
  | (k', v') :: tl =>
    match lastVal k tl with
    | some v => some v
    | none => if k' = k then some v' else none

/-- Folding a sequence of dict assignments, in order. -/
def foldIns (d : Dict) : List (Chars × Chars) → Dict
  | [] => d
  | p :: tl => foldIns (dictInsert d p.1 p.2) tl

/-! ### playlist_parser (scan.py lines 90-111)

The loop scans the lines; a line on which `channel_name_re` matches
captures the name, and the *next* line (consumed by `readline`) must
yield an address after `@` - `re.search` returning `None` there makes
`.group()` raise `AttributeError`, modelled by `Except.error ()`.  At end
of file `readline` returns the empty string, which contains no `@`. -/

def parseGo (d : Dict) : List Chars → Except Unit Dict
  | [] => .ok d
  | line :: rest =>
    match afterFirst nameMarker line with
    | none => parseGo d rest
    | some nm =>
      match rest with
      | [] => .error ()
      | next :: rest2 =>
        match afterFirst addrMark next with
        | none => .error ()
        | some ad => parseGo (dictInsert d nm ad) rest2

/-- `playlist_parser` over a file content. -/
def playlistParser (file : Chars) : Except Unit Dict :=
  parseGo [] (splitNL file)

/-- The raw sequence of name/address pairs in file order, before the dict
collapses duplicate names.  Used to state properties of the parser; it
performs exactly the same scan as `parseGo`. -/
def pairsOf : List Chars → Except Unit (List (Chars × Chars))
  | [] => .ok []
  | line :: rest =>
    match afterFirst nameMarker line with
    | none => pairsOf rest
    | some nm =>
      match rest with
      | [] => .error ()
      | next :: rest2 =>
        match afterFirst addrMark next with
        | none => .error ()
        | some ad => (pairsOf rest2).map (fun ps => (nm, ad) :: ps)

/-- The file-order name/address pairs of a playlist file. -/
def playlistPairs (file : Chars) : Except Unit (List (Chars × Chars)) :=
  pairsOf (splitNL file)

/-! ### get_ffprobe (scan.py lines 26-64)

The environment supplies the outcome of the `subprocess.run` /
`json.loads` step and, when that parses, the shape of the JSON value.
The Python function returns a string (a channel name), an int (0 or 1),
or falls off the end of the `for` loop returning `None`; a missing
`programs` or `streams` key raises `KeyError` outside every
`try` / `except`. -/

/-- A Python value returned by `get_ffprobe`. -/
inductive PyVal : Type
  | str (s : Chars)
  | int (n : Nat)
  | pynone
  deriving DecidableEq

/-- One entry of the JSON `programs` array. -/
structure FfProgram : Type where
  /-- Number of entries in the program's `streams` array, or `none` when
  the key is missing (then line 49 raises `KeyError`).  The loop at
  line 49 never reads the stream entries themselves. -/
  streams : Option Nat
  /-- The string at `tags.service_name`, or `none` when either key is
  missing or the value is unusable (then lines 53-61 catch the error). -/
  serviceTag : Option Chars
  deriving DecidableEq

/-- Outcome of running ffprobe and parsing its standard output. -/
inductive FfJson : Type
  /-- invocation failure, `subprocess.TimeoutExpired`, or standard output
  that `json.loads` rejects (the `except` at line 42) -/
  | fail
  /-- parsed JSON; the argument is the `programs` key: `none` when the
  key is absent, otherwise its array -/
  | parsed (programs : Option (List FfProgram))
  deriving DecidableEq

/-- Lines 47-64: iterate `programs`; for each, iterate `streams`; the
first stream iteration returns the service name (nonempty), or 1; a
program with an empty `streams` array is skipped; exhausting the loop
returns Python `None`. -/
def ffprobePrograms : List FfProgram → Except Unit PyVal
  | [] => .ok .pynone
  | p :: rest =>
    match p.streams with
    | none => .error ()
    | some 0 => ffprobePrograms rest
    | some (_ + 1) =>
      match p.serviceTag with
      | some s => if s ≠ [] then .ok (.str s) else .ok (.int 1)
      | none => .ok (.int 1)

/-- `get_ffprobe` as a function of the ffprobe outcome. -/
def getFfprobe : FfJson → Except Unit PyVal
  | .fail => .ok (.int 0)
  | .parsed none => .error ()
  | .parsed (some programs) => ffprobePrograms programs

/-! ### check_udp_connectivity (scan.py lines 67-87)

The socket operations are recorded as an explicit trace; the result of
the blocking `recv` is supplied by the environment.  Only
`socket.timeout` is caught (lines 82-86); any other receive error
propagates, and no operation in the function closes the socket. -/

/-- Socket operations performed by `check_udp_connectivity`, in order. -/
inductive SockOp : Type
  | acquire
  | setTimeout
  | setReuseAddr
  | setReusePort
  | bindWildcard
  | joinGroup
  | recvCall
  | close
  deriving DecidableEq

/-- Outcome of the blocking `sock.recv(10240)`. -/
inductive RecvOutcome : Type
  /-- a datagram of `n` bytes arrived (0 bytes is falsy in Python) -/
  | datagram (n : Nat)
  /-- `socket.timeout` was raised -/
  | timedOut
  /-- any other exception was raised by `recv` -/
  | failed
  deriving DecidableEq

/-- `check_udp_connectivity`: the trace of socket operations and the
returned value (or propagated exception). -/
def checkUdpConnectivity (rcv : RecvOutcome) : List SockOp × Except Unit Bool :=
  ([.acquire, .setTimeout, .setReuseAddr, .setReusePort, .bindWildcard, .joinGroup, .recvCall],
    match rcv with
    | .datagram (_ + 1) => .ok true
    | .datagram 0 => .ok false
    | .timedOut => .ok false
    | .failed => .error ())

/-! ### playlist_add (scan.py lines 155-176) -/

/-- Python `str()` of the values `playlist_add` may receive. -/
def pyStr : PyVal → Chars
  | .str s => s
  | .int n => (toString n).data
  | .pynone => "None".data

/-- Lines 163-167: the name line.  Only an `int` argument produces the
synthetic `Channel:` form; any other value is interpolated verbatim. -/
def channelString (name : PyVal) (ip port : Chars) : Chars :=
  match name with
  | .int _ => "#EXTINF:-1,Channel: ".data ++ ip ++ ':' :: port
  | nm => nameMarker ++ pyStr nm

/-- Lines 169-176: the characters appended to the output playlist file
(each `file.write` ends its line with a newline). -/
def playlistAdd (ip port : Chars) (name : PyVal) : Chars :=
  channelString name ip port ++ '\n' :: ("udp://@".data ++ ip ++ ':' :: port) ++ '\n' :: []

/-! ### The scan loop (scan.py lines 180-228) -/

/-- What the environment supplies for one probed address: the receive
outcome of the wake-up probe and the ffprobe outcome. -/
structure EntryEnv : Type where
  recv : RecvOutcome
  ff : FfJson

/-- Lines 208 and 211 (also 226-228): the printed progress line
`v - name`; concatenating the Python `None` returned by `get_ffprobe`
raises `TypeError`, modelled by `Except.error ()`. -/
def progressLine (v ip : Chars) : PyVal → Except Unit Chars
  | .int _ => .ok (v ++ " - ".data ++ ip)
  | .str s => .ok (v ++ " - ".data ++ s)
  | .pynone => .error ()

/-- Lines 204-212, one loop body after `rsplit` succeeded: wake-up probe
(result ignored, exceptions propagate), then `get_ffprobe`, then the
progress print, and finally the name handed to `playlist_add` - the
`ipaddr` string in the `int` case, the returned string otherwise. -/
def entryName (e : EntryEnv) (v ip : Chars) : Except Unit Chars :=
  match (checkUdpConnectivity e.recv).2 with
  | .error _ => .error ()
  | .ok _ =>
    match getFfprobe e.ff with
    | .error _ => .error ()
    | .ok info =>
      match progressLine v ip info with
      | .error _ => .error ()
      | .ok _ =>
        match info with
        | .int _ => .ok ip
        | .str s => .ok s
        | .pynone => .ok ip

/-- Python `rsplit` at the last occurrence of `sep`, with one split;
`none` when `sep` does not occur (then the unpacking at line 202
raises `ValueError`). -/
def rsplitLast (sep : Char) : Chars → Option (Chars × Chars)
  | [] => none
  | c :: cs =>
    match rsplitLast sep cs with
    | some (pre, post) => some (c :: pre, post)
    | none => if c = sep then some ([], cs) else none

/-- Lines 201-212: the loop over the parsed dictionary.  Returns the
characters appended to the output file and whether the loop ran to
completion (`false` models an unhandled exception; the failing entry
appends nothing, because the exception fires before its
`playlist_add`). -/
def scanLoop (env : Chars → EntryEnv) : Dict → Chars × Bool
  | [] => ([], true)
  | e :: rest =>
    match rsplitLast ':' e.2 with
    | none => ([], false)
    | some (ip, port) =>
      match entryName (env e.2) e.2 ip with
      | .error _ => ([], false)
      | .ok nm =>
        (playlistAdd ip port (.str nm) ++ (scanLoop env rest).1, (scanLoop env rest).2)

/-- How a playlist-mode run ends; the argument is the final content of
the output file. -/
inductive RunOutcome : Type
  /-- the `exit()` at line 194: the playlist path names no file -/
  | missingPlaylist (file : Chars)
  /-- an unhandled exception escaped the run -/
  | raised (file : Chars)
  /-- the loop processed every entry -/
  | completed (file : Chars)
  deriving DecidableEq

/-- `action_playlist` (lines 180-212): `create_file` writes the header
first (line 150), the existence check may then terminate the run, then
the input is parsed and the loop appends to the file. -/
def actionPlaylist (playlistExists : Bool) (input : Chars) (env : Chars → EntryEnv) :
    RunOutcome :=
  let header := "#EXTM3U\n".data
  if playlistExists then
    match playlistParser input with
    | .error _ => .raised header
    | .ok d =>
      match scanLoop env d with
      | (rows, true) => .completed (header ++ rows)
      | (rows, false) => .raised (header ++ rows)
  else .missingPlaylist header

/-- `action_ip_port` (lines 216-228): probe then identify then print;
returns the printed line, or an unhandled exception. -/
def actionIpPort (ip port : Chars) (e : EntryEnv) : Except Unit Chars :=
  match (checkUdpConnectivity e.recv).2 with
  | .error _ => .error ()
  | .ok _ =>
    match getFfprobe e.ff with
    | .error _ => .error ()
    | .ok info => progressLine (ip ++ ':' :: port) ip info

/-- The channel name the loop body computes for an entry, as a total
function (default `[]` when the body would raise); used to state
properties of completed runs. -/
def entryNameD (env : Chars → EntryEnv) (e : Chars × Chars) : Chars :=
  match rsplitLast ':' e.2 with
  | none => []
  | some (ip, _) =>
    match entryName (env e.2) e.2 ip with
    | .ok nm => nm
    | .error _ => []

/-! ### Lemmas on the string machinery -/

lemma stripPfx_append (m : Chars) : ∀ r : Chars, stripPfx m (m ++ r) = some r := by
  induction m with
  | nil => intro r; rfl
  | cons c ms ih => intro r; simp [stripPfx, ih r]

lemma afterFirst_cons_prefix (c : Char) (ms : Chars) :
    ∀ r : Chars, afterFirst (c :: ms) (c :: ms ++ r) = some r := by
  intro r
  have h : stripPfx (c :: ms) (c :: (ms ++ r)) = some r := stripPfx_append (c :: ms) r
  simp [afterFirst, h]

lemma afterFirst_nameMarker (nm : Chars) :
    afterFirst nameMarker (nameMarker ++ nm) = some nm :=
  afterFirst_cons_prefix '#' ("EXTINF:-1,".data) nm

lemma afterFirst_single_append (c : Char) :
    ∀ xs ys : Chars, c ∉ xs → afterFirst [c] (xs ++ c :: ys) = some ys := by
  intro xs
  induction xs with
  | nil => intro ys _; simp [afterFirst, stripPfx]
  | cons x xs ih =>
    intro ys h
    have hx : ¬ c = x := fun hc => h (hc ▸ List.mem_cons_self x xs)
    have hxs : c ∉ xs := fun hc => h (List.mem_cons_of_mem x hc)
    simp [afterFirst, stripPfx, hx, ih ys hxs]

lemma afterFirst_udp (r : Chars) :
    afterFirst addrMark ("udp://@".data ++ r) = some r := by
  have h : ("udp://@".data ++ r : Chars) = "udp://".data ++ '@' :: r := rfl
  rw [show (addrMark : Chars) = ['@'] from rfl, h]
  exact afterFirst_single_append '@' ("udp://".data) r (by decide)

lemma splitNL_append : ∀ xs ys : Chars, '\n' ∉ xs →
    splitNL (xs ++ '\n' :: ys) = xs :: splitNL ys := by
  intro xs
  induction xs with
  | nil => intro ys _; simp [splitNL]
  | cons x xs ih =>
    intro ys h
    have hx : ¬ x = '\n' := fun hc => h (hc ▸ List.mem_cons_self x xs)
    have hxs : ('\n' : Char) ∉ xs := fun hc => h (List.mem_cons_of_mem x hc)
    simp [splitNL, hx, ih ys hxs]

lemma rsplitLast_decomp (sep : Char) :
    ∀ l a b : Chars, rsplitLast sep l = some (a, b) → l = a ++ sep :: b := by
  intro l
  induction l with
  | nil => intro a b h; exact absurd h (by simp [rsplitLast])
  | cons c cs ih =>
    intro a b h
    simp only [rsplitLast] at h
    cases hr : rsplitLast sep cs with
    | some p =>
      obtain ⟨pre, post⟩ := p
      simp only [hr, Option.some.injEq, Prod.mk.injEq] at h
      obtain ⟨ha, hb⟩ := h
      subst ha; subst hb
      have hcs := ih pre post hr
      simp [hcs]
    | none =>
      simp only [hr] at h
      by_cases hc : c = sep
      · rw [if_pos hc] at h
        simp only [Option.some.injEq, Prod.mk.injEq] at h
        obtain ⟨ha, hb⟩ := h
        subst ha; subst hb
        simp [hc]
      · rw [if_neg hc] at h
        exact absurd h (by simp)

/-! ### The parser builds the dict by folding the file-order pairs -/

lemma parseGo_eq_pairsOf_aux : ∀ (n : Nat) (lines : List Chars), lines.length ≤ n →
    ∀ d : Dict, parseGo d lines = (pairsOf lines).map (fun ps => foldIns d ps) := by
  intro n
  induction n with
  | zero =>
    intro lines h d
    have hl : lines = [] := List.length_eq_zero.mp (Nat.le_zero.mp h)
    subst hl; rfl
  | succ n ih =>
    intro lines h d
    cases lines with
    | nil => rfl
    | cons line rest =>
      have hrest : rest.length ≤ n := by
        simp only [List.length_cons] at h; omega
      cases h1 : afterFirst nameMarker line with
      | none => simp only [parseGo, pairsOf, h1]; exact ih rest hrest d
      | some nm =>
        cases rest with
        | nil => simp [parseGo, pairsOf, h1, Except.map]
        | cons next rest2 =>
          have hrest2 : rest2.length ≤ n := by
            simp only [List.length_cons] at hrest; omega
          cases h2 : afterFirst addrMark next with
          | none => simp [parseGo, pairsOf, h1, h2, Except.map]
          | some ad =>
            have hb := ih rest2 hrest2 (dictInsert d nm ad)
            cases h3 : pairsOf rest2 with
            | error u =>
              rw [h3] at hb
              simp [parseGo, pairsOf, h1, h2, h3, hb, Except.map]
            | ok ps =>
              rw [h3] at hb
              simp [parseGo, pairsOf, h1, h2, h3, hb, Except.map, foldIns]

lemma parseGo_eq_pairsOf (lines : List Chars) (d : Dict) :
    parseGo d lines = (pairsOf lines).map (fun ps => foldIns d ps) :=
  parseGo_eq_pairsOf_aux lines.length lines (Nat.le_refl _) d

lemma playlistParser_eq_pairs (file : Chars) :
    playlistParser file = (playlistPairs file).map (fun ps => foldIns [] ps) :=
  parseGo_eq_pairsOf (splitNL file) []

/-! ### Lemmas on the dict semantics -/

lemma dictInsert_of_not_mem (k v : Chars) :
    ∀ d : Dict, k ∉ d.map Prod.fst → dictInsert d k v = d ++ [(k, v)] := by
  intro d
  induction d with
  | nil => intro _; rfl
  | cons p tl ih =>
    intro h
    obtain ⟨k', v'⟩ := p
    simp only [List.map_cons, List.mem_cons] at h
    push_neg at h
    obtain ⟨h1, h2⟩ := h
    have hk : ¬ k' = k := fun hc => h1 hc.symm
    simp [dictInsert, hk, ih h2]

lemma foldIns_of_nodup : ∀ (ps : List (Chars × Chars)) (d : Dict),
    (d.map Prod.fst ++ ps.map Prod.fst).Nodup → foldIns d ps = d ++ ps := by
  intro ps
  induction ps with
  | nil => intro d _; simp [foldIns]
  | cons p tl ih =>
    intro d h
    obtain ⟨k, v⟩ := p
    have hk : k ∉ d.map Prod.fst := by
      intro hc
      have := (List.nodup_append.mp h).2.2
      exact this hc (List.mem_cons_self k _)
    have hstep : dictInsert d k v = d ++ [(k, v)] := dictInsert_of_not_mem k v d hk
    have hnodup : ((d ++ [(k, v)]).map Prod.fst ++ tl.map Prod.fst).Nodup := by
      simpa [List.append_assoc] using h
    calc foldIns d ((k, v) :: tl) = foldIns (d ++ [(k, v)]) tl := by
          simp [foldIns, hstep]
      _ = (d ++ [(k, v)]) ++ tl := ih (d ++ [(k, v)]) hnodup
      _ = d ++ (k, v) :: tl := by simp

lemma dlookup_dictInsert (k k' v' : Chars) :
    ∀ d : Dict, dlookup k (dictInsert d k' v') =
      if k' = k then some v' else dlookup k d := by
  intro d
  induction d with
  | nil => simp [dictInsert, dlookup]
  | cons p tl ih =>
    obtain ⟨a, b⟩ := p
    by_cases hak : a = k'
    · subst hak
      by_cases hk : a = k
      · simp [dictInsert, dlookup, hk]
      · simp [dictInsert, dlookup, hk]
    · by_cases hk : a = k
      · subst hk
        have : ¬ k' = a := fun hc => hak hc.symm
        simp [dictInsert, dlookup, hak, this]
      · simp [dictInsert, dlookup, hak, hk, ih]

lemma dlookup_foldIns (k : Chars) : ∀ (ps : List (Chars × Chars)) (d : Dict),
    dlookup k (foldIns d ps) = (lastVal k ps).elim (dlookup k d) some := by
  intro ps
  induction ps with
  | nil => intro d; simp [foldIns, lastVal, Option.elim]
  | cons p tl ih =>
    intro d
    obtain ⟨k', v'⟩ := p
    have h1 : dlookup k (foldIns d ((k', v') :: tl)) =
        (lastVal k tl).elim (dlookup k (dictInsert d k' v')) some := by
      simp only [foldIns]
      exact ih (dictInsert d k' v')
    rw [h1, dlookup_dictInsert k k' v' d]
    cases hl : lastVal k tl with
    | some v => simp [lastVal, hl, Option.elim]
    | none =>
      by_cases hk : k' = k
      · simp [lastVal, hl, hk, Option.elim]
      · simp [lastVal, hl, hk, Option.elim]

lemma countKey_dictInsert (k k' v' : Chars) :
    ∀ d : Dict, countKey k (dictInsert d k' v') =
      if k' = k then (if countKey k d = 0 then 1 else countKey k d)
      else countKey k d := by
  intro d
  induction d with
  | nil =>
    by_cases hk : k' = k
    · simp [dictInsert, countKey, hk]
    · simp [dictInsert, countKey, hk]
  | cons p tl ih =>
    obtain ⟨a, b⟩ := p
    by_cases hak : a = k'
    · have hd : dictInsert ((a, b) :: tl) k' v' = (a, v') :: tl := by
        simp [dictInsert, hak]
      rw [hd]
      subst hak
      simp only [countKey]
      split_ifs <;> omega
    · have hd : dictInsert ((a, b) :: tl) k' v' = (a, b) :: dictInsert tl k' v' := by
        simp [dictInsert, hak]
      rw [hd]
      simp only [countKey, ih]
      by_cases hk : k' = k
      · rw [if_pos hk, if_pos hk]
        have hka : ¬ a = k := fun hc => hak (hc.trans hk.symm)
        rw [if_neg hka]
        split_ifs <;> omega
      · rw [if_neg hk, if_neg hk]

lemma countKey_dictInsert_le_one (k k' v' : Chars) (d : Dict)
    (h : countKey k d ≤ 1) : countKey k (dictInsert d k' v') ≤ 1 := by
  rw [countKey_dictInsert k k' v' d]
  by_cases hk : k' = k
  · rw [if_pos hk]; split <;> omega
  · rw [if_neg hk]; exact h

lemma countKey_foldIns (k : Chars) : ∀ (ps : List (Chars × Chars)) (d : Dict),
    countKey k d ≤ 1 →
    countKey k (foldIns d ps) = (lastVal k ps).elim (countKey k d) (fun _ => 1) := by
  intro ps
  induction ps with
  | nil => intro d _; simp [foldIns, lastVal, Option.elim]
  | cons p tl ih =>
    intro d h
    obtain ⟨k', v'⟩ := p
    have h1 : countKey k (foldIns d ((k', v') :: tl)) =
        (lastVal k tl).elim (countKey k (dictInsert d k' v')) (fun _ => 1) := by
      simp only [foldIns]
      exact ih (dictInsert d k' v') (countKey_dictInsert_le_one k k' v' d h)
    rw [h1]
    cases hl : lastVal k tl with
    | some v =>
      have hcons : lastVal k ((k', v') :: tl) = some v := by simp [lastVal, hl]
      rw [hcons]
      simp only [Option.elim_some]
    | none =>
      have hcons : lastVal k ((k', v') :: tl) = if k' = k then some v' else none := by
        simp [lastVal, hl]
      rw [hcons]
      by_cases hk : k' = k
      · rw [if_pos hk]
        have h2 : countKey k (dictInsert d k' v') =
            if countKey k d = 0 then 1 else countKey k d := by
          rw [countKey_dictInsert k k' v' d, if_pos hk]
        rw [Option.elim_none, Option.elim_some, h2]
        split <;> omega
      · rw [if_neg hk]
        have h2 : countKey k (dictInsert d k' v') = countKey k d := by
          rw [countKey_dictInsert k k' v' d, if_neg hk]
        rw [Option.elim_none, Option.elim_none, h2]

lemma lastVal_eq_none_iff (k : Chars) :
    ∀ ps : List (Chars × Chars), lastVal k ps = none ↔ countKey k ps = 0 := by
  intro ps
  induction ps with
  | nil => simp [lastVal, countKey]
  | cons p tl ih =>
    obtain ⟨k', v'⟩ := p
    cases hl : lastVal k tl with
    | some v =>
      have htl : countKey k tl ≠ 0 := by
        intro hc
        have hn := ih.mpr hc
        rw [hl] at hn
        exact Option.noConfusion hn
      have hcons : lastVal k ((k', v') :: tl) = some v := by simp [lastVal, hl]
      rw [hcons]
      simp only [countKey]
      constructor
      · intro hc; exact Option.noConfusion hc
      · intro hc
        exfalso
        by_cases hk : k' = k
        · rw [if_pos hk] at hc; omega
        · rw [if_neg hk] at hc; omega
    | none =>
      have htl : countKey k tl = 0 := ih.mp hl
      have hcons : lastVal k ((k', v') :: tl) = if k' = k then some v' else none := by
        simp [lastVal, hl]
      rw [hcons]
      simp only [countKey, htl]
      by_cases hk : k' = k
      · simp [hk]
      · simp [hk]

lemma lastVal_exists_of_countKey (k : Chars) (ps : List (Chars × Chars))
    (h : 1 ≤ countKey k ps) : ∃ v, lastVal k ps = some v := by
  cases hl : lastVal k ps with
  | some v => exact ⟨v, rfl⟩
  | none =>
    have := (lastVal_eq_none_iff k ps).mp hl
    omega

/-! ### A completed scan writes rows that re-parse to the probed pairs -/

lemma scan_reparse (env : Chars → EntryEnv) :
    ∀ (d : Dict) (rows : Chars), scanLoop env d = (rows, true) →
    (∀ e ∈ d, ('\n') ∉ e.2) →
    (∀ e ∈ d, ('\n') ∉ entryNameD env e) →
    pairsOf (splitNL rows) = .ok (d.map (fun e => (entryNameD env e, e.2))) := by
  intro d
  induction d with
  | nil =>
    intro rows h _ _
    simp only [scanLoop, Prod.mk.injEq] at h
    obtain ⟨h1, _⟩ := h
    subst h1
    rfl
  | cons e tl ih =>
    intro rows h hv hnm
    cases hr : rsplitLast ':' e.2 with
    | none =>
      simp only [scanLoop, hr, Prod.mk.injEq] at h
      exact absurd h.2 (by simp)
    | some p =>
      obtain ⟨ip, port⟩ := p
      cases hn : entryName (env e.2) e.2 ip with
      | error u =>
        simp only [scanLoop, hr, hn, Prod.mk.injEq] at h
        exact absurd h.2 (by simp)
      | ok nm =>
        simp only [scanLoop, hr, hn, Prod.mk.injEq] at h
        obtain ⟨hrows, hok⟩ := h
        have htl : scanLoop env tl = ((scanLoop env tl).1, true) := by
          rw [← hok]
        have ihs := ih (scanLoop env tl).1 htl
          (fun x hx => hv x (List.mem_cons_of_mem e hx))
          (fun x hx => hnm x (List.mem_cons_of_mem e hx))
        have hname : entryNameD env e = nm := by simp [entryNameD, hr, hn]
        have hdecomp : e.2 = ip ++ ':' :: port := rsplitLast_decomp ':' e.2 ip port hr
        have hv2 : ('\n') ∉ e.2 := hv e (List.mem_cons_self e tl)
        have hnm2 : ('\n') ∉ nm := hname ▸ hnm e (List.mem_cons_self e tl)
        have hip : ('\n') ∉ ip := fun hc => hv2 (hdecomp ▸ List.mem_append_left _ hc)
        have hport : ('\n') ∉ port := fun hc =>
          hv2 (hdecomp ▸ List.mem_append_right _ (List.mem_cons_of_mem ':' hc))
        subst hrows
        have hshape : playlistAdd ip port (.str nm) ++ (scanLoop env tl).1
            = (nameMarker ++ nm) ++
              '\n' :: (("udp://@".data ++ ip ++ ':' :: port) ++
                '\n' :: (scanLoop env tl).1) := by
          simp [playlistAdd, channelString, pyStr, List.append_assoc]
        have hcs : ('\n') ∉ nameMarker ++ nm := by
          intro hc
          rcases List.mem_append.mp hc with hc | hc
          · exact absurd hc (by decide)
          · exact hnm2 hc
        have hudp : ('\n') ∉ "udp://@".data ++ ip ++ ':' :: port := by
          intro hc
          rcases List.mem_append.mp hc with hc | hc
          · rcases List.mem_append.mp hc with hc | hc
            · exact absurd hc (by decide)
            · exact hip hc
          · rcases List.mem_cons.mp hc with hc | hc
            · exact absurd hc (by decide)
            · exact hport hc
        rw [hshape, splitNL_append _ _ hcs, splitNL_append _ _ hudp]
        have h1 : afterFirst nameMarker (nameMarker ++ nm) = some nm := afterFirst_nameMarker nm
        have h2 : afterFirst addrMark ("udp://@".data ++ ip ++ ':' :: port)
            = some (ip ++ ':' :: port) := afterFirst_udp (ip ++ ':' :: port)
        simp only [pairsOf, h1, h2, ihs, Except.map, List.map_cons, hname, ← hdecomp,
          List.append_eq, List.nil_append, List.append_nil]

lemma splitNL_header (rows : Chars) :
    splitNL ("#EXTM3U\n".data ++ rows) = "#EXTM3U".data :: splitNL rows := by
  have h0 : ("#EXTM3U\n".data ++ rows : Chars) = "#EXTM3U".data ++ '\n' :: rows := rfl
  rw [h0]
  exact splitNL_append _ _ (by decide)

lemma pairsOf_header (lines : List Chars) :
    pairsOf ("#EXTM3U".data :: lines) = pairsOf lines := by
  have h : afterFirst nameMarker ("#EXTM3U".data) = none := by decide
  simp only [pairsOf, h]

/-! ### The claims -/

/-- C1: the claim states that in playlist mode an entry whose
identification returns an int (0 or 1) gets the synthetic name line
Channel: address:port.  The code does not: line 209 passes `ipaddr` (a
str) instead of `info` to `playlist_add`, so the int branch of
`playlist_add` (which would produce exactly the claimed line) is dead
and the written name line is the bare address.  This theorem evaluates
the run at a failing input: one entry whose ffprobe invocation fails
(identification returns 0); the output row's name line is the bare
address, the `channelString` int branch shows the form the claim
demands, and the two differ. -/
theorem C1_fallback_row_divergence :
    actionPlaylist true ("#EXTM3U\n#EXTINF:-1,News\nudp://@239.1.1.10:1234\n".data)
        (fun _ => ⟨RecvOutcome.timedOut, FfJson.fail⟩)
      = .completed ("#EXTM3U\n#EXTINF:-1,239.1.1.10\nudp://@239.1.1.10:1234\n".data) ∧
    channelString (PyVal.int 0) ("239.1.1.10".data) ("1234".data)
      = "#EXTINF:-1,Channel: 239.1.1.10:1234".data ∧
    ("#EXTINF:-1,239.1.1.10".data : Chars) ≠ "#EXTINF:-1,Channel: 239.1.1.10:1234".data :=
  ⟨by decide, by decide, by decide⟩

/-- C2: the claim states the per-entry loop never raises an unhandled
fault and appends exactly one row per parsed entry.  The code violates
this: when ffprobe output parses with an empty programs array,
`get_ffprobe` returns Python None and the progress print at line 211
raises TypeError before any row is appended.  This theorem evaluates the
run at such a failing input: one entry parses, yet the run raises with
the output file still containing only the header. -/
theorem C2_loop_fault_divergence :
    actionPlaylist true ("#EXTM3U\n#EXTINF:-1,News\nudp://@239.1.1.10:1234\n".data)
        (fun _ => ⟨RecvOutcome.timedOut, FfJson.parsed (some [])⟩)
      = .raised ("#EXTM3U\n".data) ∧
    playlistParser ("#EXTM3U\n#EXTINF:-1,News\nudp://@239.1.1.10:1234\n".data)
      = .ok [(("News".data : Chars), ("239.1.1.10:1234".data : Chars))] :=
  ⟨by decide, by decide⟩

/-- C3 counterexample: the claim states that ffprobe output parsing as
JSON with an empty programs array makes `get_ffprobe` return 0
(NoStreamData).  It does not: the `for` loop at line 47 runs zero times
and the function falls off the end returning Python None. -/
theorem C3_empty_programs_not_zero :
    getFfprobe (FfJson.parsed (some [])) = .ok PyVal.pynone ∧
    getFfprobe (FfJson.parsed (some [])) ≠ .ok (PyVal.int 0) := by decide

/-- C3 amended: invocation failure, timeout, or unparseable output make
`get_ffprobe` return 0 without raising (line 42-44); an empty programs
array instead makes it return Python None, also without raising. -/
theorem C3_amended_failure_modes :
    getFfprobe FfJson.fail = .ok (PyVal.int 0) ∧
    getFfprobe (FfJson.parsed (some [])) = .ok PyVal.pynone := by decide

/-- C4 counterexample: the claim states a name line whose following line
has no address is silently dropped and the remaining well-formed entries
are returned.  The code instead raises: `re.search` at line 108 returns
None and `.group()` raises AttributeError, so the parse of a playlist
with one malformed pair followed by a well-formed one fails outright. -/
theorem C4_missing_address_raises :
    playlistParser
      ("#EXTM3U\n#EXTINF:-1,News\nno-address-here\n#EXTINF:-1,Sport\nudp://@239.1.1.11:5678\n".data)
      = .error () := by decide

/-- C4 amended: whenever a name line is followed by a line containing no
at-sign, `playlist_parser` raises (AttributeError from calling `.group()`
on None), aborting the parse regardless of what follows. -/
theorem C4_amended_parse_error (d : Dict) (line next : Chars) (rest : List Chars) (nm : Chars)
    (h1 : afterFirst nameMarker line = some nm)
    (h2 : afterFirst addrMark next = none) :
    parseGo d (line :: next :: rest) = .error () := by
  simp [parseGo, h1, h2]

theorem C4_amended_parse_error_witness :
    afterFirst nameMarker ("#EXTINF:-1,News".data) = some ("News".data) ∧
    afterFirst addrMark ("no-address-here".data) = none ∧
    parseGo [] [("#EXTINF:-1,News".data), ("no-address-here".data)] = .error () :=
  ⟨by decide, by decide,
    C4_amended_parse_error [] ("#EXTINF:-1,News".data) ("no-address-here".data) []
      ("News".data) (by decide) (by decide)⟩

/-- C5: when the playlist path names no file, the run terminates (the
`exit()` at line 194) after `create_file` has already written the
header, and the output file contains exactly the header line and no
entry row, whatever the input content and environment. -/
theorem C5_missing_playlist_header_only (input : Chars) (env : Chars → EntryEnv) :
    actionPlaylist false input env = .missingPlaylist ("#EXTM3U\n".data) := rfl

/-- C6 counterexample: the claim states the socket is released by
guaranteed cleanup before the call returns.  The function body contains
no `close`, no `with` and no `finally`: the recorded operation trace of
a timed-out call contains no close operation. -/
theorem C6_no_close_in_trace :
    SockOp.close ∉ (checkUdpConnectivity RecvOutcome.timedOut).1 := by decide

/-- C6 amended: the socket is acquired, configured, bound, joined and
read within the call, and a receive timeout is caught (the call returns
false); but no trace ever contains a close operation - release is left
to the language runtime - and a non-timeout receive error propagates
out of the call. -/
theorem C6_amended_socket_trace (rcv : RecvOutcome) :
    SockOp.close ∉ (checkUdpConnectivity rcv).1 ∧
    (checkUdpConnectivity RecvOutcome.timedOut).2 = .ok false ∧
    (checkUdpConnectivity RecvOutcome.failed).2 = .error () := by
  refine ⟨?_, by decide, by decide⟩
  show SockOp.close ∉ [SockOp.acquire, SockOp.setTimeout, SockOp.setReuseAddr,
    SockOp.setReusePort, SockOp.bindWildcard, SockOp.joinGroup, SockOp.recvCall]
  decide

/-- C7: when the file-order pairs of the input playlist carry a name two
or more times, the parsed dictionary holds exactly one entry for that
name and its value is the address of the last such pair in file order
(CPython dict assignment is last-write-wins on the value). -/
theorem C7_last_write_wins (file : Chars) (ps : List (Chars × Chars)) (nm : Chars)
    (hp : playlistPairs file = .ok ps) (hdup : 2 ≤ countKey nm ps) :
    ∃ d, playlistParser file = .ok d ∧ countKey nm d = 1 ∧
      dlookup nm d = lastVal nm ps := by
  refine ⟨foldIns [] ps, ?_, ?_, ?_⟩
  · rw [playlistParser_eq_pairs, hp]; rfl
  · have h1 := countKey_foldIns nm ps [] (by simp [countKey])
    obtain ⟨v, hv⟩ := lastVal_exists_of_countKey nm ps (by omega)
    rw [h1, hv, Option.elim_some]
  · have h2 := dlookup_foldIns nm ps []
    obtain ⟨v, hv⟩ := lastVal_exists_of_countKey nm ps (by omega)
    rw [h2, hv, Option.elim_some]

theorem C7_last_write_wins_witness :
    playlistPairs
      ("#EXTM3U\n#EXTINF:-1,News\nudp://@239.1.1.10:1234\n#EXTINF:-1,News\nudp://@239.1.1.11:5678\n".data)
      = .ok [(("News".data : Chars), ("239.1.1.10:1234".data : Chars)),
             (("News".data : Chars), ("239.1.1.11:5678".data : Chars))] ∧
    2 ≤ countKey ("News".data)
      [(("News".data : Chars), ("239.1.1.10:1234".data : Chars)),
       (("News".data : Chars), ("239.1.1.11:5678".data : Chars))] ∧
    (∃ d, playlistParser
        ("#EXTM3U\n#EXTINF:-1,News\nudp://@239.1.1.10:1234\n#EXTINF:-1,News\nudp://@239.1.1.11:5678\n".data)
        = .ok d ∧
      countKey ("News".data) d = 1 ∧
      dlookup ("News".data) d = lastVal ("News".data)
        [(("News".data : Chars), ("239.1.1.10:1234".data : Chars)),
         (("News".data : Chars), ("239.1.1.11:5678".data : Chars))]) :=
  ⟨by decide, by decide, C7_last_write_wins _ _ _ (by decide) (by decide)⟩

/-- C8 counterexample: the claim states that re-parsing the produced
output playlist always yields a mapping whose set of addresses equals
the probed set.  Two entries with the same address and different ports
both fail identification, both rows get the same bare-address display
name, and the re-parse collapses them: the first probed address is
absent from the re-parsed mapping. -/
theorem C8_roundtrip_counterexample :
    actionPlaylist true
        ("#EXTM3U\n#EXTINF:-1,A\nudp://@239.1.1.10:1234\n#EXTINF:-1,B\nudp://@239.1.1.10:5678\n".data)
        (fun _ => ⟨RecvOutcome.timedOut, FfJson.fail⟩)
      = .completed
        ("#EXTM3U\n#EXTINF:-1,239.1.1.10\nudp://@239.1.1.10:1234\n#EXTINF:-1,239.1.1.10\nudp://@239.1.1.10:5678\n".data) ∧
    playlistParser
        ("#EXTM3U\n#EXTINF:-1,A\nudp://@239.1.1.10:1234\n#EXTINF:-1,B\nudp://@239.1.1.10:5678\n".data)
      = .ok [(("A".data : Chars), ("239.1.1.10:1234".data : Chars)),
             (("B".data : Chars), ("239.1.1.10:5678".data : Chars))] ∧
    playlistParser
        ("#EXTM3U\n#EXTINF:-1,239.1.1.10\nudp://@239.1.1.10:1234\n#EXTINF:-1,239.1.1.10\nudp://@239.1.1.10:5678\n".data)
      = .ok [(("239.1.1.10".data : Chars), ("239.1.1.10:5678".data : Chars))] ∧
    ("239.1.1.10:1234".data : Chars) ∈
      [(("A".data : Chars), ("239.1.1.10:1234".data : Chars)),
       (("B".data : Chars), ("239.1.1.10:5678".data : Chars))].map Prod.snd ∧
    ("239.1.1.10:1234".data : Chars) ∉
      [(("239.1.1.10".data : Chars), ("239.1.1.10:5678".data : Chars))].map Prod.snd :=
  ⟨by decide, by decide, by decide, by decide, by decide⟩

/-- C8 amended: for a completed playlist-mode run whose per-entry
display names are pairwise distinct and contain no newline (and whose
entry addresses contain no newline), re-parsing the produced output file
yields exactly the display-name/address pairs of the probed entries in
order; in particular every output row re-parses to a pair with the same
address, and the re-parsed address list equals the probed address
list.  Without the distinctness hypothesis the dict collapses duplicate
display names (see the counterexample). -/
theorem C8_amended_roundtrip (env : Chars → EntryEnv) (d : Dict) (rows : Chars)
    (hscan : scanLoop env d = (rows, true))
    (hv : ∀ e ∈ d, ('\n') ∉ e.2)
    (hnm : ∀ e ∈ d, ('\n') ∉ entryNameD env e)
    (hdup : (d.map (entryNameD env)).Nodup) :
    playlistParser ("#EXTM3U\n".data ++ rows)
      = .ok (d.map (fun e => (entryNameD env e, e.2))) ∧
    (d.map (fun e => (entryNameD env e, e.2))).map Prod.snd = d.map Prod.snd := by
  constructor
  · have hpairs := scan_reparse env d rows hscan hv hnm
    have hkeys : ((d.map (fun e => (entryNameD env e, e.2))).map Prod.fst).Nodup := by
      simpa [List.map_map, Function.comp] using hdup
    have hfold : foldIns [] (d.map (fun e => (entryNameD env e, e.2)))
        = d.map (fun e => (entryNameD env e, e.2)) := by
      have := foldIns_of_nodup (d.map (fun e => (entryNameD env e, e.2))) []
        (by simpa using hkeys)
      simpa using this
    have hp2 : playlistPairs ("#EXTM3U\n".data ++ rows)
        = .ok (d.map (fun e => (entryNameD env e, e.2))) := by
      simp only [playlistPairs]
      rw [splitNL_header, pairsOf_header, hpairs]
    rw [playlistParser_eq_pairs, hp2]
    simp [Except.map, hfold]
  · simp [List.map_map, Function.comp]

theorem C8_amended_roundtrip_witness :
    scanLoop (fun _ => ⟨RecvOutcome.timedOut, FfJson.fail⟩)
        [(("News".data : Chars), ("239.1.1.10:1234".data : Chars))]
      = ("#EXTINF:-1,239.1.1.10\nudp://@239.1.1.10:1234\n".data, true) ∧
    playlistParser ("#EXTM3U\n".data ++ "#EXTINF:-1,239.1.1.10\nudp://@239.1.1.10:1234\n".data)
      = .ok ([(("News".data : Chars), ("239.1.1.10:1234".data : Chars))].map
          (fun e => (entryNameD (fun _ => ⟨RecvOutcome.timedOut, FfJson.fail⟩) e, e.2))) :=
  ⟨by decide,
    (C8_amended_roundtrip (fun _ => ⟨RecvOutcome.timedOut, FfJson.fail⟩)
      [(("News".data : Chars), ("239.1.1.10:1234".data : Chars))]
      ("#EXTINF:-1,239.1.1.10\nudp://@239.1.1.10:1234\n".data)
      (by decide) (by decide) (by decide) (by decide)).1⟩

/-- C9: when the file-order pairs of the input playlist carry pairwise
distinct names, the parsed dictionary is exactly that pair list - the
CPython dict preserves insertion order, so the scan loop iterates,
prints and appends in the order the name lines occur in the file. -/
theorem C9_order_preserved (file : Chars) (ps : List (Chars × Chars))
    (hp : playlistPairs file = .ok ps) (hdup : (ps.map Prod.fst).Nodup) :
    playlistParser file = .ok ps := by
  rw [playlistParser_eq_pairs, hp]
  have hfold : foldIns [] ps = ps := by
    have := foldIns_of_nodup ps [] (by simpa using hdup)
    simpa using this
  simp [Except.map, hfold]

theorem C9_order_preserved_witness :
    playlistPairs
      ("#EXTM3U\n#EXTINF:-1,News\nudp://@239.1.1.10:1234\n#EXTINF:-1,Sport\nudp://@239.1.1.11:5678\n".data)
      = .ok [(("News".data : Chars), ("239.1.1.10:1234".data : Chars)),
             (("Sport".data : Chars), ("239.1.1.11:5678".data : Chars))] ∧
    ([(("News".data : Chars), ("239.1.1.10:1234".data : Chars)),
      (("Sport".data : Chars), ("239.1.1.11:5678".data : Chars))].map Prod.fst).Nodup ∧
    playlistParser
      ("#EXTM3U\n#EXTINF:-1,News\nudp://@239.1.1.10:1234\n#EXTINF:-1,Sport\nudp://@239.1.1.11:5678\n".data)
      = .ok [(("News".data : Chars), ("239.1.1.10:1234".data : Chars)),
             (("Sport".data : Chars), ("239.1.1.11:5678".data : Chars))] :=
  ⟨by decide, by decide, C9_order_preserved _ _ (by decide) (by decide)⟩

/-- C10: ffprobe output that parses as JSON with an empty programs
array, or with programs whose streams arrays are all empty, makes
`get_ffprobe` return Python None - a fourth outcome distinct from a
name string and from the ints 0 and 1 - and both callers then raise
TypeError when concatenating it into the progress line. -/
theorem C10_none_outcome :
    getFfprobe (FfJson.parsed (some [])) = .ok PyVal.pynone ∧
    (∀ ps : List FfProgram, (∀ p ∈ ps, p.streams = some 0) →
      getFfprobe (FfJson.parsed (some ps)) = .ok PyVal.pynone) ∧
    (∀ s, PyVal.pynone ≠ PyVal.str s) ∧
    (∀ n, PyVal.pynone ≠ PyVal.int n) ∧
    (∀ v ip, progressLine v ip PyVal.pynone = .error ()) ∧
    (∀ ip port, actionIpPort ip port ⟨RecvOutcome.timedOut, FfJson.parsed (some [])⟩
      = .error ()) := by
  refine ⟨by decide, ?_, ?_, ?_, ?_, ?_⟩
  · intro ps h
    induction ps with
    | nil => rfl
    | cons p tl ih =>
      have hp : p.streams = some 0 := h p (List.mem_cons_self p tl)
      have ih2 := ih (fun q hq => h q (List.mem_cons_of_mem p hq))
      simp only [getFfprobe, ffprobePrograms, hp] at ih2 ⊢
      exact ih2
  · intro s hc; exact PyVal.noConfusion hc
  · intro n hc; exact PyVal.noConfusion hc
  · intro v ip; rfl
  · intro ip port; rfl

theorem C10_none_outcome_witness :
    (∀ p ∈ [FfProgram.mk (some 0) (some ("X".data))], p.streams = some 0) ∧
    getFfprobe (FfJson.parsed (some [FfProgram.mk (some 0) (some ("X".data))]))
      = .ok PyVal.pynone :=
  ⟨by decide, C10_none_outcome.2.1 [FfProgram.mk (some 0) (some ("X".data))] (by decide)⟩

end MulticastScan
